import Mathlib

/-!
Shallow embedding, over exact real arithmetic, of the pursuit-evasion
geometry engine of this repository: `src/lib/utility.py` (geometry
kernel and path planner), `src/lib/obstacle.py`, `src/lib/evader.py`,
`src/lib/pursuer.py` (agent motion policies) and `src/lib/gameboard.py`
(isochrone grid and per-tick update).

A planar numpy point `[x, y]` is embedded as the complex number
`x + y*I`; componentwise vector addition, subtraction and scaling of
2-element `np.array`s coincide with the corresponding operations on `ℂ`
(scaling and division by a scalar are multiplication and division by a
real coercion).  Python `ValueError` exceptions are modelled with
`Except`.  Numpy float arithmetic is idealised as exact real
arithmetic, so `np.sqrt`, `np.arccos`, `np.arctan2`, `np.cos`,
`np.sin`, `np.hypot` become `Real.sqrt`, `Real.arccos`, `Complex.arg`,
`Real.cos`, `Real.sin`.
-/

noncomputable section
open Classical

/-- np.hypot: Euclidean length of the 2-vector `(x, y)`. -/
def hypot (x y : ℝ) : ℝ := Real.sqrt (x ^ 2 + y ^ 2)

/-- np.linalg.norm of a 2-element vector, on the complex embedding. -/
def normC (v : ℂ) : ℝ := hypot v.re v.im

/-- np.dot of two 2-element vectors, on the complex embedding. -/
def dotC (v w : ℂ) : ℝ := v.re * w.re + v.im * w.im

/-- np.arctan2 y x: the angle of the vector `(x, y)`, in `(-π, π]`.
`Complex.arg (x + y*I)` has exactly the two-argument arctangent's
case-split definition and range. -/
def atan2 (y x : ℝ) : ℝ := Complex.arg ⟨x, y⟩

/-- np.clip applied to a scalar. -/
def npclip (x lo hi : ℝ) : ℝ := max lo (min x hi)

/-- Result of `compute_tangents_circle` (`utility.py`): the returned list
`[tangent_point_1, tangent_point_2, extended_tangent_line_1,
extended_tangent_line_2]` as a structure. -/
structure TangentData where
  t1 : ℂ
  t2 : ℂ
  line1 : ℂ × ℂ
  line2 : ℂ × ℂ

/-- Body of `compute_tangents_circle` past the inside-the-circle guard
(`utility.py` lines 42-70): the two tangent points at angles
`angle_to_center ∓ arccos(radius/distance)` and the two tangent rays
extended from `point` to `extension_length`. -/
def tangent_data (circle_center : ℂ) (circle_radius : ℝ) (point : ℂ)
    (extension_length : ℝ) : TangentData :=
  let diff_x := point.re - circle_center.re
  let diff_y := point.im - circle_center.im
  let distance := hypot diff_x diff_y
  let angle_to_center := atan2 diff_y diff_x
  let angle_offset := Real.arccos (circle_radius / distance)
  let a1 := angle_to_center - angle_offset
  let a2 := angle_to_center + angle_offset
  let t1 : ℂ := ⟨circle_center.re + circle_radius * Real.cos a1,
                 circle_center.im + circle_radius * Real.sin a1⟩
  let t2 : ℂ := ⟨circle_center.re + circle_radius * Real.cos a2,
                 circle_center.im + circle_radius * Real.sin a2⟩
  let dir1 := (t1 - point) / (normC (t1 - point) : ℂ)
  let dir2 := (t2 - point) / (normC (t2 - point) : ℂ)
  ⟨t1, t2, (point, point + (extension_length : ℂ) * dir1),
           (point, point + (extension_length : ℂ) * dir2)⟩

/-- `compute_tangents_circle` (`utility.py` lines 7-70).  Raises
`ValueError` when the point is at distance at most `circle_radius` from
the center, otherwise returns the tangent points and extended tangent
lines.  The Python default `extension_length=1000` is passed explicitly
at every call site of this embedding. -/
def compute_tangents_circle (circle_center : ℂ) (circle_radius : ℝ) (point : ℂ)
    (extension_length : ℝ) : Except String TangentData :=
  if hypot (point.re - circle_center.re) (point.im - circle_center.im) ≤ circle_radius then
    .error "No tangents possible: point is inside or on the circle."
  else
    .ok (tangent_data circle_center circle_radius point extension_length)

/-- Perpendicular distance from `circle_center` to the supporting line of
the segment, via the coefficients `a x + b y + c = 0` exactly as
computed by `does_line_intersect_circle` (`utility.py` lines 94-102). -/
def perp_distance (point1 point2 circle_center : ℂ) : ℝ :=
  let diff_x := point2.re - point1.re
  let diff_y := point2.im - point1.im
  let a := diff_y
  let b := -diff_x
  let c := diff_x * point1.im - diff_y * point1.re
  |a * circle_center.re + b * circle_center.im + c| / Real.sqrt (a ^ 2 + b ^ 2)

/-- The clamped closest point of the segment to the circle center, as
computed by `does_line_intersect_circle` (`utility.py` lines 108-120). -/
def closest_point (point1 point2 circle_center : ℂ) : ℂ :=
  let diff_x := point2.re - point1.re
  let diff_y := point2.im - point1.im
  let dot := (circle_center.re - point1.re) * diff_x + (circle_center.im - point1.im) * diff_y
  let len_sq := diff_x ^ 2 + diff_y ^ 2
  let param := dot / len_sq
  if param < 0 then point1
  else if 1 < param then point2
  else ⟨point1.re + param * diff_x, point1.im + param * diff_y⟩

/-- `does_line_intersect_circle` (`utility.py` lines 72-126): false when
the perpendicular line distance exceeds the radius, otherwise true iff
the clamped closest point of the segment is strictly inside the circle. -/
def does_line_intersect_circle (point1 point2 circle_center : ℂ) (circle_radius : ℝ) : Bool :=
  if circle_radius < perp_distance point1 point2 circle_center then false
  else if normC (closest_point point1 point2 circle_center - circle_center) < circle_radius then
    true
  else false

/-- `arc_length` (`utility.py` lines 174-200): the shorter arc between
two points on the circle, with the normalized dot product clipped to
`[-1, 1]`. -/
def arc_length (center : ℂ) (radius : ℝ) (point1 point2 : ℂ) : ℝ :=
  let v1 := point1 - center
  let v2 := point2 - center
  let dot_product := dotC v1 v2
  let angle := Real.arccos (npclip (dot_product / radius ^ 2) (-1) 1)
  radius * min angle (2 * Real.pi - angle)

/-- One step of Python's `min(paths, key=lambda x: x[0])`: keep the
accumulator unless the next element's key is strictly smaller (so the
first minimum wins, as in CPython). -/
def pickMin (acc x : ℝ × List ℂ) : ℝ × List ℂ := if x.1 < acc.1 then x else acc

/-- `shortest_path_with_circle` (`utility.py` lines 128-172): the direct
segment when it does not intersect the circle, otherwise the minimum of
the four tangent-tangent-arc candidate paths.  `compute_tangents_circle`
is evaluated first on `point1`, then on `point2`; a `ValueError` from
either propagates. -/
def shortest_path_with_circle (circle_center : ℂ) (circle_radius : ℝ)
    (point1 point2 : ℂ) : Except String (ℝ × List ℂ) :=
  if does_line_intersect_circle point1 point2 circle_center circle_radius = false then
    .ok (normC (point2 - point1), [point1, point2])
  else
    match compute_tangents_circle circle_center circle_radius point1 1000 with
    | .error e => .error e
    | .ok tg1 =>
      match compute_tangents_circle circle_center circle_radius point2 1000 with
      | .error e => .error e
      | .ok tg2 =>
        let t1a := tg1.t1
        let t1b := tg1.t2
        let t2a := tg2.t1
        let t2b := tg2.t2
        let path1 := (normC (t1a - point1) + normC (t2a - point2) +
            arc_length circle_center circle_radius t1a t2a, [point1, t1a, t2a, point2])
        let path2 := (normC (t1b - point1) + normC (t2b - point2) +
            arc_length circle_center circle_radius t1b t2b, [point1, t1b, t2b, point2])
        let path3 := (normC (t1a - point1) + normC (t2b - point2) +
            arc_length circle_center circle_radius t1a t2b, [point1, t1a, t2b, point2])
        let path4 := (normC (t1b - point1) + normC (t2a - point2) +
            arc_length circle_center circle_radius t1b t2a, [point1, t1b, t2a, point2])
        .ok (pickMin (pickMin (pickMin path1 path2) path3) path4)

/-- Obstacle (`obstacle.py`): the single circular obstacle.  The `shape` and
`color` fields are rendering-only constants and are omitted. -/
structure Obstacle where
  center : ℂ
  radius : ℝ

/-- Evader agent state (`evader.py`): current position, speed, board
half-extent, trajectory history and the shared obstacle.  The `color`
and `shape` fields are rendering-only constants and are omitted. -/
structure Evader where
  position : ℂ
  speed : ℝ
  board_size : ℝ
  trajectory : List ℂ
  obstacle : Obstacle

/-- The `new_position` computed by `Evader.move_opposite_direction`
(`evader.py` lines 78-79). -/
def Evader.new_position_opposite (e : Evader) (pursuer_position : ℂ) : ℂ :=
  let direction := e.position - pursuer_position
  e.position + (e.speed : ℂ) * direction / (normC direction : ℂ)

/-- `Evader.move_opposite_direction` (`evader.py` lines 65-85): step away
from the pursuer; accept the new position only when both coordinates
stay within the board half-extent; always append the (moved or
unchanged) position to the trajectory. -/
def Evader.move_opposite_direction (e : Evader) (pursuer_position : ℂ) : Evader :=
  let new_position := e.new_position_opposite pursuer_position
  let pos := if |new_position.re| ≤ e.board_size ∧ |new_position.im| ≤ e.board_size then
    new_position else e.position
  { e with position := pos, trajectory := e.trajectory ++ [pos] }

/-- The `new_position` computed by `Evader.move_along_tangent`
(`evader.py` lines 100-112): head towards whichever tangent point is
farther from the pursuer (`np.argmax` keeps the first index on ties, so
the first tangent point wins unless the second is strictly farther). -/
def Evader.new_position_tangent (e : Evader) (pursuer_position : ℂ) : ℂ :=
  let tg := tangent_data e.obstacle.center e.obstacle.radius e.position 1000
  let d1 := normC (tg.t1 - pursuer_position)
  let d2 := normC (tg.t2 - pursuer_position)
  let further_tangent := if d1 < d2 then tg.t2 else tg.t1
  let direction := further_tangent - e.position
  e.position + (e.speed : ℂ) * direction / (normC direction : ℂ)

/-- `Evader.move_along_tangent` (`evader.py` lines 87-118): the tangent
computation may raise `ValueError` (before any mutation); on success the
step is board-clamped and the resulting position appended.  The `ok`
payload of `compute_tangents_circle` is definitionally
`tangent_data ...`, which `Evader.new_position_tangent` reuses. -/
def Evader.move_along_tangent (e : Evader) (pursuer_position : ℂ) : Except String Evader :=
  match compute_tangents_circle e.obstacle.center e.obstacle.radius e.position 1000 with
  | .error msg => .error msg
  | .ok _ =>
    let new_position := e.new_position_tangent pursuer_position
    let pos := if |new_position.re| ≤ e.board_size ∧ |new_position.im| ≤ e.board_size then
      new_position else e.position
    .ok { e with position := pos, trajectory := e.trajectory ++ [pos] }

/-- `Evader.move` (`evader.py` lines 39-63): dispatch on line of sight. -/
def Evader.move (e : Evader) (pursuer_position : ℂ) : Except String Evader :=
  if does_line_intersect_circle e.position pursuer_position
      e.obstacle.center e.obstacle.radius = false then
    .ok (e.move_opposite_direction pursuer_position)
  else
    e.move_along_tangent pursuer_position

/-- Pursuer agent state (`pursuer.py`): position, speed, board
half-extent, trajectory, shared obstacle and the stored tangent points
and extended tangent lines of the last tangent computation.  `color`
and `shape` are rendering-only constants and are omitted. -/
structure Pursuer where
  position : ℂ
  speed : ℝ
  board_size : ℝ
  trajectory : List ℂ
  obstacle : Obstacle
  tangent_points : ℂ × ℂ
  tangent_lines : (ℂ × ℂ) × (ℂ × ℂ)

/-- The `new_position` computed by `Pursuer.move_shortest_path`
(`pursuer.py` lines 57-78): straight at the evader when visible;
otherwise towards the stored second tangent point when strictly more
than `1e-6` off the obstacle boundary; otherwise counterclockwise along
the circumference by `speed / radius` radians. -/
def Pursuer.new_position (p : Pursuer) (evader_position : ℂ) : ℂ :=
  if does_line_intersect_circle p.position evader_position
      p.obstacle.center p.obstacle.radius = false then
    let direction := evader_position - p.position
    p.position + direction / (normC direction : ℂ) * (p.speed : ℂ)
  else
    let distance_to_obstacle := normC (p.position - p.obstacle.center) - p.obstacle.radius
    if 1 / 1000000 < distance_to_obstacle then
      let right_tangent := p.tangent_points.2
      let direction := right_tangent - p.position
      p.position + direction / (normC direction : ℂ) * (p.speed : ℂ)
    else
      let angle := atan2 (p.position.im - p.obstacle.center.im)
        (p.position.re - p.obstacle.center.re)
      let new_angle := angle + p.speed / p.obstacle.radius
      ⟨p.obstacle.center.re + p.obstacle.radius * Real.cos new_angle,
       p.obstacle.center.im + p.obstacle.radius * Real.sin new_angle⟩

/-- `Pursuer.move_shortest_path` (`pursuer.py` lines 56-87).  The
position is overwritten and appended to the trajectory unconditionally
(there is no board-boundary check), and only then are the tangent
points recomputed at the new position; if that recomputation raises
`ValueError`, the exception propagates with the mutation already done —
the `error` payload carries the mutated state (stale tangent fields),
exactly like the Python object after the uncaught exception. -/
def Pursuer.move_shortest_path (p : Pursuer) (evader_position : ℂ) : Except Pursuer Pursuer :=
  let new_position := p.new_position evader_position
  let moved := { p with position := new_position, trajectory := p.trajectory ++ [new_position] }
  match compute_tangents_circle p.obstacle.center p.obstacle.radius new_position 1000 with
  | .error _ => .error moved
  | .ok tg => .ok { moved with tangent_points := (tg.t1, tg.t2),
                               tangent_lines := (tg.line1, tg.line2) }

/-- The pursuer object as it stands after `move_shortest_path` returns
or raises: the Python `self` in either case. -/
def exceptState : Except Pursuer Pursuer → Pursuer
  | .ok p => p
  | .error p => p

/-- Game board state (`gameboard.py`): the two agents, the obstacle, the
board half-extent, the per-cell grid map and the isochrone point list.
The Python grid is a dict keyed by float pairs; it is modelled as a
total function on `ℝ × ℝ` (keys the build never writes keep their
initial value, mirroring dict entries that are never overwritten). -/
structure GameBoard where
  pursuer : Pursuer
  evader : Evader
  obstacle : Obstacle
  board_size : ℕ
  grid : ℝ × ℝ → ℝ × ℝ × ℝ
  isocrones : List (ℝ × ℝ)

/-- A grid key `(x, y)` as the planar point `[x, y]`. -/
def toC (p : ℝ × ℝ) : ℂ := ⟨p.1, p.2⟩

/-- `shortest_path_with_circle(...)[0]` as used by `compute_isocrones`:
the scalar length of the result.  An exception would abort the whole
Python sweep; this extraction returns 0 on the error case, and the
grid theorems carry the hypotheses (both agents strictly outside the
obstacle) under which no grid cell can raise, keeping the embedding
faithful on the domain the theorems speak about. -/
def shortest_path_length (circle_center : ℂ) (circle_radius : ℝ) (point1 point2 : ℂ) : ℝ :=
  match shortest_path_with_circle circle_center circle_radius point1 point2 with
  | .ok v => v.1
  | .error _ => 0

/-- Exact-arithmetic `np.arange(-board_size, board_size + 0.1, 0.1)`:
the `20*board_size + 1` samples `-board_size + k/10`. -/
def grid_range (bs : ℕ) : List ℝ :=
  (List.range (20 * bs + 1)).map fun k : ℕ => -(bs : ℝ) + (k : ℝ) / 10

/-- The sample points of the isochrone sweep, in loop order (`x` outer,
`y` inner), `gameboard.py` lines 66-73. -/
def sample_points (bs : ℕ) : List (ℝ × ℝ) :=
  (grid_range bs).flatMap fun x => (grid_range bs).map fun y => (x, y)

/-- The triple stored into `grid[(x, y)]` by one iteration of
`compute_isocrones` (`gameboard.py` lines 74-84): the sentinel
`(0, 0, board_size)` inside the obstacle, otherwise the two
shortest-path distances and the weighted time difference. -/
def cell_value (g : GameBoard) (p : ℝ × ℝ) : ℝ × ℝ × ℝ :=
  if hypot (p.1 - g.obstacle.center.re) (p.2 - g.obstacle.center.im) ≤ g.obstacle.radius then
    (0, 0, (g.board_size : ℝ))
  else
    let pursuer_distance := shortest_path_length g.obstacle.center g.obstacle.radius
      (toC p) g.pursuer.position
    let evader_distance := shortest_path_length g.obstacle.center g.obstacle.radius
      (toC p) g.evader.position
    (pursuer_distance, evader_distance,
      pursuer_distance * g.evader.speed - evader_distance * g.pursuer.speed)

/-- Whether one iteration of `compute_isocrones` appends `(x, y)` to the
isochrone list: outside the obstacle and time difference within the
tolerance. -/
def cell_in_iso (g : GameBoard) (tolarance : ℝ) (p : ℝ × ℝ) : Prop :=
  ¬ hypot (p.1 - g.obstacle.center.re) (p.2 - g.obstacle.center.im) ≤ g.obstacle.radius ∧
    |(cell_value g p).2.2| ≤ tolarance

/-- One iteration of the `compute_isocrones` double loop: store the
cell's triple (overwriting any previous value at that key) and append
the point to the isochrone list if it qualifies. -/
def cell_step (g : GameBoard) (tolarance : ℝ) (p : ℝ × ℝ) : GameBoard :=
  if hypot (p.1 - g.obstacle.center.re) (p.2 - g.obstacle.center.im) ≤ g.obstacle.radius then
    { g with grid := fun q => if q = p then (0, 0, (g.board_size : ℝ)) else g.grid q }
  else
    let pursuer_distance := shortest_path_length g.obstacle.center g.obstacle.radius
      (toC p) g.pursuer.position
    let evader_distance := shortest_path_length g.obstacle.center g.obstacle.radius
      (toC p) g.evader.position
    let time_difference := pursuer_distance * g.evader.speed - evader_distance * g.pursuer.speed
    { g with
      grid := fun q => if q = p then (pursuer_distance, evader_distance, time_difference)
        else g.grid q,
      isocrones := if |time_difference| ≤ tolarance then g.isocrones ++ [p] else g.isocrones }

/-- `GameBoard.compute_isocrones` (`gameboard.py` lines 56-93): sweep
every sample point, overwriting `grid` and appending qualifying points
to `isocrones` (which is never cleared).  The Python default
`tolarance=0.004` is passed explicitly by callers of this embedding. -/
def GameBoard.compute_isocrones (g : GameBoard) (tolarance : ℝ) : GameBoard :=
  (sample_points g.board_size).foldl (fun st p => cell_step st tolarance p) g

/-- `GameBoard.update` (`gameboard.py` lines 95-99): the two move calls
are commented out in the source and the body is `pass`, so the state is
returned unchanged. -/
def GameBoard.update (g : GameBoard) : GameBoard := g

/-- The `GameBoard.update` of `tempCodeRunnerFile.py` (lines 79-82):
move the pursuer along its shortest-path policy towards the evader,
then move the evader opposite to the pursuer's new position; a
`ValueError` from the pursuer's move propagates before the evader
moves. -/
def GameBoard.update_temp (g : GameBoard) : Except GameBoard GameBoard :=
  match g.pursuer.move_shortest_path g.evader.position with
  | .error p => .error { g with pursuer := p }
  | .ok p => .ok { g with pursuer := p,
                          evader := g.evader.move_opposite_direction p.position }

/-! Basic facts about the embedded vector operations. -/

theorem normC_eq_abs (v : ℂ) : normC v = Complex.abs v := by
  rw [normC, hypot, Complex.abs_apply, Complex.normSq_apply]
  congr 1
  ring

theorem normC_nonneg (v : ℂ) : 0 ≤ normC v := Real.sqrt_nonneg _

theorem normC_sq (v : ℂ) : normC v ^ 2 = dotC v v := by
  rw [normC, hypot, Real.sq_sqrt (by positivity), dotC]
  ring

theorem dotC_comm (v w : ℂ) : dotC v w = dotC w v := by
  simp only [dotC]
  ring

theorem normC_eq_zero_iff {v : ℂ} : normC v = 0 ↔ v = 0 := by
  rw [normC_eq_abs, map_eq_zero]

theorem normC_sub_comm (a b : ℂ) : normC (a - b) = normC (b - a) := by
  rw [normC_eq_abs, normC_eq_abs, ← neg_sub, map_neg_eq_map]

theorem normC_add_le (u v : ℂ) : normC (u + v) ≤ normC u + normC v := by
  rw [normC_eq_abs, normC_eq_abs, normC_eq_abs]
  exact Complex.abs.add_le u v

theorem normC_triangle (a x b : ℂ) : normC (a - b) ≤ normC (a - x) + normC (x - b) := by
  have h := normC_add_le (a - x) (x - b)
  simpa using h

theorem abs_dotC_le (v w : ℂ) : |dotC v w| ≤ normC v * normC w := by
  have hsq : dotC v w ^ 2 ≤ (normC v * normC w) ^ 2 := by
    rw [mul_pow, normC_sq, normC_sq, dotC, dotC, dotC]
    nlinarith [sq_nonneg (v.re * w.im - v.im * w.re)]
  have h1 : 0 ≤ normC v * normC w := mul_nonneg (normC_nonneg v) (normC_nonneg w)
  nlinarith [abs_nonneg (dotC v w), sq_abs (dotC v w)]

theorem hypot_eq_abs (x y : ℝ) : hypot x y = Complex.abs ⟨x, y⟩ :=
  normC_eq_abs ⟨x, y⟩

theorem hypot_sq {x y : ℝ} : hypot x y ^ 2 = x ^ 2 + y ^ 2 :=
  Real.sq_sqrt (by positivity)

theorem cos_atan2 {y x : ℝ} (h : ¬(x = 0 ∧ y = 0)) :
    Real.cos (atan2 y x) = x / hypot x y := by
  have hz : (⟨x, y⟩ : ℂ) ≠ 0 := by
    simp only [ne_eq, Complex.ext_iff, Complex.zero_re, Complex.zero_im]
    exact h
  rw [atan2, Complex.cos_arg hz, hypot_eq_abs]

theorem sin_atan2 (y x : ℝ) : Real.sin (atan2 y x) = y / hypot x y := by
  rw [atan2, Complex.sin_arg, hypot_eq_abs]

/-- The trigonometric core of the tangent construction: the component of
the unit vector at angle `atan2 dy dx + α` along `(dx, dy)` is
`hypot dx dy * cos α`. -/
theorem dir_component (dx dy α : ℝ) (h : 0 < hypot dx dy) :
    dx * Real.cos (atan2 dy dx + α) + dy * Real.sin (atan2 dy dx + α) =
      hypot dx dy * Real.cos α := by
  have hne : ¬(dx = 0 ∧ dy = 0) := by
    rintro ⟨h1, h2⟩
    rw [h1, h2] at h
    simp [hypot] at h
  have hd : hypot dx dy ≠ 0 := ne_of_gt h
  have hsq : hypot dx dy ^ 2 = dx ^ 2 + dy ^ 2 := hypot_sq
  rw [Real.cos_add, Real.sin_add, cos_atan2 hne, sin_atan2]
  field_simp
  linear_combination (-Real.cos α) * hsq

theorem circle_point_norm (c : ℂ) (r a : ℝ) (hr : 0 ≤ r) :
    normC ((⟨c.re + r * Real.cos a, c.im + r * Real.sin a⟩ : ℂ) - c) = r := by
  have h1 : ((⟨c.re + r * Real.cos a, c.im + r * Real.sin a⟩ : ℂ) - c) =
      ⟨r * Real.cos a, r * Real.sin a⟩ := by
    simp [Complex.ext_iff, Complex.sub_re, Complex.sub_im]
  rw [h1, normC, hypot]
  have h2 : (r * Real.cos a) ^ 2 + (r * Real.sin a) ^ 2 = r ^ 2 := by
    nlinarith [Real.sin_sq_add_cos_sq a]
  show Real.sqrt ((r * Real.cos a) ^ 2 + (r * Real.sin a) ^ 2) = r
  rw [h2, Real.sqrt_sq hr]

theorem circle_point_perp (c : ℂ) (r : ℝ) (p : ℂ) (a : ℝ)
    (key : (p.re - c.re) * Real.cos a + (p.im - c.im) * Real.sin a = r) :
    dotC (p - ⟨c.re + r * Real.cos a, c.im + r * Real.sin a⟩)
      ((⟨c.re + r * Real.cos a, c.im + r * Real.sin a⟩ : ℂ) - c) = 0 := by
  have hs := Real.sin_sq_add_cos_sq a
  simp only [dotC, Complex.sub_re, Complex.sub_im]
  linear_combination r * key - r ^ 2 * hs

/-- The two tangent points constructed by `compute_tangents_circle` lie
exactly on the circle and each is perpendicular, at the tangent point,
to the segment from the external point (exact arithmetic). -/
theorem tangent_data_props (c : ℂ) (r : ℝ) (p : ℂ) (ext : ℝ) (hr : 0 ≤ r)
    (h : r < hypot (p.re - c.re) (p.im - c.im)) :
    normC ((tangent_data c r p ext).t1 - c) = r ∧
    normC ((tangent_data c r p ext).t2 - c) = r ∧
    dotC (p - (tangent_data c r p ext).t1) ((tangent_data c r p ext).t1 - c) = 0 ∧
    dotC (p - (tangent_data c r p ext).t2) ((tangent_data c r p ext).t2 - c) = 0 := by
  have hd0 : 0 < hypot (p.re - c.re) (p.im - c.im) := lt_of_le_of_lt hr h
  have hlo : -1 ≤ r / hypot (p.re - c.re) (p.im - c.im) := by
    have := div_nonneg hr hd0.le
    linarith
  have hhi : r / hypot (p.re - c.re) (p.im - c.im) ≤ 1 := by
    rw [div_le_one hd0]
    exact le_of_lt h
  have hcos : Real.cos (Real.arccos (r / hypot (p.re - c.re) (p.im - c.im))) =
      r / hypot (p.re - c.re) (p.im - c.im) := Real.cos_arccos hlo hhi
  have key1 : (p.re - c.re) * Real.cos (atan2 (p.im - c.im) (p.re - c.re) -
        Real.arccos (r / hypot (p.re - c.re) (p.im - c.im))) +
      (p.im - c.im) * Real.sin (atan2 (p.im - c.im) (p.re - c.re) -
        Real.arccos (r / hypot (p.re - c.re) (p.im - c.im))) = r := by
    have hc := dir_component (p.re - c.re) (p.im - c.im)
      (-(Real.arccos (r / hypot (p.re - c.re) (p.im - c.im)))) hd0
    rw [Real.cos_neg, hcos, ← sub_eq_add_neg] at hc
    rw [hc]
    field_simp
  have key2 : (p.re - c.re) * Real.cos (atan2 (p.im - c.im) (p.re - c.re) +
        Real.arccos (r / hypot (p.re - c.re) (p.im - c.im))) +
      (p.im - c.im) * Real.sin (atan2 (p.im - c.im) (p.re - c.re) +
        Real.arccos (r / hypot (p.re - c.re) (p.im - c.im))) = r := by
    have hc := dir_component (p.re - c.re) (p.im - c.im)
      (Real.arccos (r / hypot (p.re - c.re) (p.im - c.im))) hd0
    rw [hcos] at hc
    rw [hc]
    field_simp
  refine ⟨circle_point_norm c r _ hr, circle_point_norm c r _ hr,
    circle_point_perp c r p _ key1, circle_point_perp c r p _ key2⟩

theorem mk_re (x y : ℝ) : (⟨x, y⟩ : ℂ).re = x := rfl

theorem mk_im (x y : ℝ) : (⟨x, y⟩ : ℂ).im = y := rfl

/-- C7: `compute_tangents_circle` raises the degenerate-geometry
`ValueError` exactly for points at distance at most the radius from the
center, and returns the tangent pair without error for every point
strictly farther. -/
theorem c7_tangents_error_iff (circle_center : ℂ) (circle_radius : ℝ) (point : ℂ) (ext : ℝ) :
    (hypot (point.re - circle_center.re) (point.im - circle_center.im) ≤ circle_radius ∧
      compute_tangents_circle circle_center circle_radius point ext =
        .error "No tangents possible: point is inside or on the circle.") ∨
    (circle_radius < hypot (point.re - circle_center.re) (point.im - circle_center.im) ∧
      compute_tangents_circle circle_center circle_radius point ext =
        .ok (tangent_data circle_center circle_radius point ext)) := by
  by_cases hc : hypot (point.re - circle_center.re) (point.im - circle_center.im) ≤ circle_radius
  · exact Or.inl ⟨hc, by rw [compute_tangents_circle, if_pos hc]⟩
  · exact Or.inr ⟨lt_of_not_le hc, by rw [compute_tangents_circle, if_neg hc]⟩

/-- C8: `does_line_intersect_circle` uses strict intersection: a segment
whose clamped closest point to the center lies at distance exactly the
radius is reported as not intersecting, and so is any segment whose
supporting line's perpendicular distance from the center exceeds the
radius. -/
theorem c8_strict_intersection (point1 point2 circle_center : ℂ) (circle_radius : ℝ) :
    (normC (closest_point point1 point2 circle_center - circle_center) = circle_radius →
      does_line_intersect_circle point1 point2 circle_center circle_radius = false) ∧
    (circle_radius < perp_distance point1 point2 circle_center →
      does_line_intersect_circle point1 point2 circle_center circle_radius = false) := by
  constructor
  · intro h
    rw [does_line_intersect_circle]
    split
    · rfl
    · rw [if_neg]
      rw [h]
      exact lt_irrefl _
  · intro h
    rw [does_line_intersect_circle, if_pos h]

/-- Witness for C8 with concrete inputs: the tangential horizontal
segment from `(-1, 1)` to `(1, 1)` against the unit circle at the
origin (closest point `(0, 1)` at distance exactly 1), and the segment
from `(0, 0)` to `(1, 0)` against the unit circle at `(0, 5)` (line
distance 5 above the radius). -/
theorem c8_strict_intersection_witness :
    normC (closest_point ⟨-1, 1⟩ ⟨1, 1⟩ 0 - 0) = 1 ∧
    does_line_intersect_circle ⟨-1, 1⟩ ⟨1, 1⟩ 0 1 = false ∧
    (1 : ℝ) < perp_distance 0 ⟨1, 0⟩ ⟨0, 5⟩ ∧
    does_line_intersect_circle 0 ⟨1, 0⟩ ⟨0, 5⟩ 1 = false := by
  have h1 : normC (closest_point ⟨-1, 1⟩ ⟨1, 1⟩ 0 - 0) = 1 := by
    rw [closest_point]
    norm_num [mk_re, mk_im, Complex.zero_re, Complex.zero_im, normC, hypot, Complex.sub_re,
      Complex.sub_im]
  have h2 : (1 : ℝ) < perp_distance 0 ⟨1, 0⟩ ⟨0, 5⟩ := by
    rw [perp_distance]
    norm_num [mk_re, mk_im, Complex.zero_re, Complex.zero_im, Real.sqrt_one]
  exact ⟨h1, (c8_strict_intersection ⟨-1, 1⟩ ⟨1, 1⟩ 0 1).1 h1, h2,
    (c8_strict_intersection 0 ⟨1, 0⟩ ⟨0, 5⟩ 1).2 h2⟩

/-- C3 (amended): `shortest_path_with_circle` raises the
degenerate-geometry `ValueError` exactly when the direct segment (per
`does_line_intersect_circle`) intersects the circle AND at least one
endpoint is at distance at most the radius from the center.  In
particular an endpoint on or inside the circle does not by itself cause
the error when the direct segment does not strictly intersect. -/
theorem c3_amended_error_iff (circle_center : ℂ) (circle_radius : ℝ) (point1 point2 : ℂ) :
    (∃ e, shortest_path_with_circle circle_center circle_radius point1 point2 =
      .error e) ↔
    (does_line_intersect_circle point1 point2 circle_center circle_radius = true ∧
      (hypot (point1.re - circle_center.re) (point1.im - circle_center.im) ≤ circle_radius ∨
       hypot (point2.re - circle_center.re) (point2.im - circle_center.im) ≤ circle_radius)) := by
  rw [shortest_path_with_circle]
  by_cases hI : does_line_intersect_circle point1 point2 circle_center circle_radius = false
  · rw [if_pos hI]
    simp [hI]
  · rw [if_neg hI]
    have hI' : does_line_intersect_circle point1 point2 circle_center circle_radius = true :=
      Bool.not_eq_false _ |>.mp hI
    by_cases h1 : hypot (point1.re - circle_center.re) (point1.im - circle_center.im) ≤
        circle_radius
    · rw [compute_tangents_circle, if_pos h1]
      simp [hI', h1]
    · rw [compute_tangents_circle, if_neg h1]
      by_cases h2 : hypot (point2.re - circle_center.re) (point2.im - circle_center.im) ≤
          circle_radius
      · rw [compute_tangents_circle, if_pos h2]
        simp [hI', h1, h2]
      · rw [compute_tangents_circle, if_neg h2]
        simp [hI', h1, h2]

/-- C3 counterexample: with the unit circle at the origin, the endpoint
`(1, 0)` lies exactly on the circle (distance equal to the radius), yet
`shortest_path_with_circle` to `(2, 0)` succeeds with the direct path
instead of raising, because the direct segment does not strictly
intersect the circle. -/
theorem c3_counterexample :
    hypot ((⟨1, 0⟩ : ℂ).re - (0 : ℂ).re) ((⟨1, 0⟩ : ℂ).im - (0 : ℂ).im) ≤ 1 ∧
    shortest_path_with_circle 0 1 ⟨1, 0⟩ ⟨2, 0⟩ = .ok (1, [⟨1, 0⟩, ⟨2, 0⟩]) := by
  constructor
  · norm_num [hypot, mk_re, mk_im, Complex.zero_re, Complex.zero_im, Real.sqrt_one]
  · have hI : does_line_intersect_circle ⟨1, 0⟩ ⟨2, 0⟩ 0 1 = false := by
      rw [does_line_intersect_circle, perp_distance, closest_point]
      norm_num [mk_re, mk_im, Complex.zero_re, Complex.zero_im, normC, hypot, Complex.sub_re,
        Complex.sub_im, Real.sqrt_one]
    rw [shortest_path_with_circle, if_pos hI]
    norm_num [normC, hypot, Complex.sub_re, Complex.sub_im, mk_re, mk_im, Real.sqrt_one]

/-- C9: for a positive-radius circle and an external point strictly
outside it, both tangent points returned by `compute_tangents_circle`
lie at distance exactly the radius from the center, and each
point-to-tangent-point segment is perpendicular to the radius vector at
the tangent point (zero dot product), in exact arithmetic. -/
theorem c9_tangent_points_exact (circle_center : ℂ) (circle_radius : ℝ) (point : ℂ) (ext : ℝ)
    (hr : 0 < circle_radius) (h : circle_radius < normC (point - circle_center)) :
    ∃ tg, compute_tangents_circle circle_center circle_radius point ext = .ok tg ∧
      normC (tg.t1 - circle_center) = circle_radius ∧
      normC (tg.t2 - circle_center) = circle_radius ∧
      dotC (point - tg.t1) (tg.t1 - circle_center) = 0 ∧
      dotC (point - tg.t2) (tg.t2 - circle_center) = 0 := by
  have hh : circle_radius <
      hypot (point.re - circle_center.re) (point.im - circle_center.im) := by
    rw [normC, Complex.sub_re, Complex.sub_im] at h
    exact h
  obtain ⟨h1, h2, h3, h4⟩ := tangent_data_props circle_center circle_radius point ext hr.le hh
  exact ⟨_, by rw [compute_tangents_circle, if_neg (not_le_of_lt hh)], h1, h2, h3, h4⟩

/-- Witness for C9 at the unit circle around the origin and the
external point `(2, 0)`. -/
theorem c9_tangent_points_exact_witness :
    (0 : ℝ) < 1 ∧ (1 : ℝ) < normC ((⟨2, 0⟩ : ℂ) - 0) ∧
    (∃ tg, compute_tangents_circle 0 1 ⟨2, 0⟩ 1000 = .ok tg ∧
      normC (tg.t1 - 0) = 1 ∧ normC (tg.t2 - 0) = 1 ∧
      dotC ((⟨2, 0⟩ : ℂ) - tg.t1) (tg.t1 - 0) = 0 ∧
      dotC ((⟨2, 0⟩ : ℂ) - tg.t2) (tg.t2 - 0) = 0) := by
  have hs4 : Real.sqrt 4 = 2 := by
    rw [show (4 : ℝ) = 2 ^ 2 by norm_num, Real.sqrt_sq (by norm_num)]
  have h : (1 : ℝ) < normC ((⟨2, 0⟩ : ℂ) - 0) := by
    norm_num [normC, hypot, Complex.sub_re, Complex.sub_im, mk_re, mk_im, Complex.zero_re,
      Complex.zero_im, hs4]
  exact ⟨one_pos, h, c9_tangent_points_exact 0 1 ⟨2, 0⟩ 1000 one_pos h⟩

/-- C4: the per-tick `GameBoard.update` of `gameboard.py` does not
advance either agent — its two move calls are commented out and the
body is `pass` — so positions and trajectories are unchanged: no
trajectory entry is appended and no motion-policy step happens,
contradicting the claim that one step per agent is taken. -/
theorem c4_update_is_noop (g : GameBoard) :
    (GameBoard.update g).pursuer.position = g.pursuer.position ∧
    (GameBoard.update g).evader.position = g.evader.position ∧
    (GameBoard.update g).pursuer.trajectory = g.pursuer.trajectory ∧
    (GameBoard.update g).evader.trajectory = g.evader.trajectory ∧
    GameBoard.update g = g :=
  ⟨rfl, rfl, rfl, rfl, rfl⟩

/-- A pursuer standing `1e-7` outside the unit obstacle (within the
`1e-6` on-edge threshold of `move_shortest_path`), with the evader
occluded behind the obstacle.  Its stored tangent data is irrelevant to
the on-edge branch. -/
def edgePursuer : Pursuer :=
  { position := ⟨1 + 1 / 10000000, 0⟩
    speed := 1
    board_size := 15
    trajectory := [⟨1 + 1 / 10000000, 0⟩]
    obstacle := { center := 0, radius := 1 }
    tangent_points := (0, 0)
    tangent_lines := ((0, 0), (0, 0)) }

theorem edgePursuer_occluded :
    does_line_intersect_circle (⟨1 + 1 / 10000000, 0⟩ : ℂ) ⟨-2, 0⟩ 0 1 = true := by
  rw [does_line_intersect_circle, perp_distance, closest_point]
  norm_num [mk_re, mk_im, Complex.zero_re, Complex.zero_im, normC, hypot, Complex.sub_re,
    Complex.sub_im, Real.sqrt_zero]

theorem edgePursuer_new_position :
    edgePursuer.new_position ⟨-2, 0⟩ = ⟨Real.cos 1, Real.sin 1⟩ := by
  rw [Pursuer.new_position]
  simp only [edgePursuer]
  rw [if_neg (by rw [edgePursuer_occluded]; simp)]
  rw [if_neg]
  · have harg : atan2 ((⟨1 + 1 / 10000000, 0⟩ : ℂ).im - (0 : ℂ).im)
        ((⟨1 + 1 / 10000000, 0⟩ : ℂ).re - (0 : ℂ).re) = 0 := by
      rw [atan2]
      apply Complex.arg_eq_zero_iff.mpr
      constructor
      · norm_num [mk_re, mk_im, Complex.zero_re, Complex.zero_im]
      · norm_num [mk_re, mk_im, Complex.zero_re, Complex.zero_im]
    rw [harg]
    norm_num [Complex.zero_re, Complex.zero_im]
  · have hn : normC ((⟨1 + 1 / 10000000, 0⟩ : ℂ) - 0) = 1 + 1 / 10000000 := by
      rw [normC, hypot]
      rw [show ((⟨1 + 1 / 10000000, 0⟩ : ℂ) - 0).re = 1 + 1 / 10000000 by
        norm_num [Complex.sub_re, mk_re, Complex.zero_re]]
      rw [show ((⟨1 + 1 / 10000000, 0⟩ : ℂ) - 0).im = 0 by
        norm_num [Complex.sub_im, mk_im, Complex.zero_im]]
      rw [show ((1 : ℝ) + 1 / 10000000) ^ 2 + 0 ^ 2 = (1 + 1 / 10000000) ^ 2 by ring]
      exact Real.sqrt_sq (by norm_num)
    rw [hn]
    norm_num

theorem unit_circle_point_hypot (a : ℝ) :
    hypot ((⟨Real.cos a, Real.sin a⟩ : ℂ).re - (0 : ℂ).re)
      ((⟨Real.cos a, Real.sin a⟩ : ℂ).im - (0 : ℂ).im) = 1 := by
  rw [hypot]
  rw [show ((⟨Real.cos a, Real.sin a⟩ : ℂ).re - (0 : ℂ).re) ^ 2 +
      ((⟨Real.cos a, Real.sin a⟩ : ℂ).im - (0 : ℂ).im) ^ 2 = 1 by
    simp only [mk_re, mk_im, Complex.zero_re, Complex.zero_im, sub_zero]
    nlinarith [Real.sin_sq_add_cos_sq a]]
  exact Real.sqrt_one

/-- C10: `move_shortest_path` is not atomic on error.  From the
reachable state `edgePursuer` (occluded, within the `1e-6` threshold of
the obstacle boundary), the counterclockwise circumference move lands
exactly on the circle, so the trailing tangent recomputation raises the
degenerate-geometry `ValueError` — but only after the position has been
overwritten and appended to the trajectory; the propagated state has
the new position, the extended trajectory, and stale tangent fields. -/
theorem c10_error_after_mutation :
    ∃ s' : Pursuer,
      edgePursuer.move_shortest_path ⟨-2, 0⟩ = .error s' ∧
      s'.position = ⟨Real.cos 1, Real.sin 1⟩ ∧
      s'.position ≠ edgePursuer.position ∧
      s'.trajectory = edgePursuer.trajectory ++ [⟨Real.cos 1, Real.sin 1⟩] ∧
      s'.tangent_points = edgePursuer.tangent_points := by
  have htg : compute_tangents_circle (0 : ℂ) 1 ⟨Real.cos 1, Real.sin 1⟩ 1000 =
      .error "No tangents possible: point is inside or on the circle." := by
    rw [compute_tangents_circle, if_pos (le_of_eq (unit_circle_point_hypot 1))]
  have hsin : 0 < Real.sin 1 :=
    Real.sin_pos_of_pos_of_lt_pi one_pos (by linarith [Real.pi_gt_three])
  refine ⟨{ edgePursuer with position := ⟨Real.cos 1, Real.sin 1⟩,
                             trajectory := edgePursuer.trajectory ++
                               [⟨Real.cos 1, Real.sin 1⟩] }, ?_, rfl, ?_, rfl, rfl⟩
  · rw [Pursuer.move_shortest_path]
    simp only [edgePursuer_new_position]
    rw [show edgePursuer.obstacle.center = (0 : ℂ) from rfl,
      show edgePursuer.obstacle.radius = (1 : ℝ) from rfl, htg]
  · intro hEq
    have him := congrArg Complex.im hEq
    simp only [mk_im] at him
    rw [show edgePursuer.position = ⟨1 + 1 / 10000000, 0⟩ from rfl, mk_im] at him
    linarith

/-- Whatever the outcome of the trailing tangent recomputation, the
pursuer object after `move_shortest_path` holds the computed new
position and has appended it to the trajectory — there is no
board-boundary check in `move_shortest_path`. -/
theorem move_shortest_path_state (p : Pursuer) (evader_position : ℂ) :
    (exceptState (p.move_shortest_path evader_position)).position =
      p.new_position evader_position ∧
    (exceptState (p.move_shortest_path evader_position)).trajectory =
      p.trajectory ++ [p.new_position evader_position] := by
  rw [Pursuer.move_shortest_path]
  cases h : compute_tangents_circle p.obstacle.center p.obstacle.radius
      (p.new_position evader_position) 1000 with
  | error e => simp [h, exceptState]
  | ok tg => simp [h, exceptState]

/-- C2 (amended): the board-boundary clamp holds for the Evader's two
moves — an out-of-board computed position leaves the position
unchanged, and the resulting position is appended to the trajectory as
exactly one entry — while the Pursuer's `move_shortest_path` has no
boundary check at all: it always overwrites its position with the
computed step and appends it, even out of board. -/
theorem c2_amended (e : Evader) (pursuer_position : ℂ) (p : Pursuer) (evader_position : ℂ)
    (htan : e.obstacle.radius < hypot (e.position.re - e.obstacle.center.re)
      (e.position.im - e.obstacle.center.im)) :
    (¬ (|(e.new_position_opposite pursuer_position).re| ≤ e.board_size ∧
        |(e.new_position_opposite pursuer_position).im| ≤ e.board_size) →
      (e.move_opposite_direction pursuer_position).position = e.position) ∧
    (e.move_opposite_direction pursuer_position).trajectory =
      e.trajectory ++ [(e.move_opposite_direction pursuer_position).position] ∧
    (∃ e', e.move_along_tangent pursuer_position = .ok e' ∧
      (¬ (|(e.new_position_tangent pursuer_position).re| ≤ e.board_size ∧
          |(e.new_position_tangent pursuer_position).im| ≤ e.board_size) →
        e'.position = e.position) ∧
      e'.trajectory = e.trajectory ++ [e'.position]) ∧
    (exceptState (p.move_shortest_path evader_position)).position =
      p.new_position evader_position ∧
    (exceptState (p.move_shortest_path evader_position)).trajectory =
      p.trajectory ++ [p.new_position evader_position] := by
  refine ⟨?_, ?_, ?_, move_shortest_path_state p evader_position⟩
  · intro h
    rw [Evader.move_opposite_direction]
    simp only [if_neg h]
  · rw [Evader.move_opposite_direction]
  · rw [Evader.move_along_tangent, compute_tangents_circle, if_neg (not_le_of_lt htan)]
    refine ⟨_, rfl, ?_, rfl⟩
    intro h
    simp only [if_neg h]

/-- An evader strictly outside the unit obstacle, used to discharge the
hypothesis of the amended C2 theorem on concrete inputs. -/
def boardEvader : Evader :=
  { position := ⟨3, 0⟩
    speed := 1
    board_size := 15
    trajectory := [⟨3, 0⟩]
    obstacle := { center := 0, radius := 1 } }

/-- A pursuer on a tiny board (half-extent 2) whose straight step toward
a visible evader at `(4, 0)` computes the out-of-board position
`(3, 0)`. -/
def boardPursuer : Pursuer :=
  { position := ⟨2, 0⟩
    speed := 1
    board_size := 2
    trajectory := [⟨2, 0⟩]
    obstacle := { center := 0, radius := 1 }
    tangent_points := (0, 0)
    tangent_lines := ((0, 0), (0, 0)) }

theorem sqrt_four : Real.sqrt 4 = 2 := by
  rw [show (4 : ℝ) = 2 ^ 2 by norm_num, Real.sqrt_sq (by norm_num)]

theorem sqrt_nine : Real.sqrt 9 = 3 := by
  rw [show (9 : ℝ) = 3 ^ 2 by norm_num, Real.sqrt_sq (by norm_num)]

/-- Witness for the amended C2 theorem at concrete states. -/
theorem c2_amended_witness :
    boardEvader.obstacle.radius < hypot (boardEvader.position.re - boardEvader.obstacle.center.re)
      (boardEvader.position.im - boardEvader.obstacle.center.im) ∧
    ((¬ (|(boardEvader.new_position_opposite ⟨4, 0⟩).re| ≤ boardEvader.board_size ∧
        |(boardEvader.new_position_opposite ⟨4, 0⟩).im| ≤ boardEvader.board_size) →
      (boardEvader.move_opposite_direction ⟨4, 0⟩).position = boardEvader.position) ∧
    (boardEvader.move_opposite_direction ⟨4, 0⟩).trajectory =
      boardEvader.trajectory ++ [(boardEvader.move_opposite_direction ⟨4, 0⟩).position] ∧
    (∃ e', boardEvader.move_along_tangent ⟨4, 0⟩ = .ok e' ∧
      (¬ (|(boardEvader.new_position_tangent ⟨4, 0⟩).re| ≤ boardEvader.board_size ∧
          |(boardEvader.new_position_tangent ⟨4, 0⟩).im| ≤ boardEvader.board_size) →
        e'.position = boardEvader.position) ∧
      e'.trajectory = boardEvader.trajectory ++ [e'.position]) ∧
    (exceptState (boardPursuer.move_shortest_path ⟨4, 0⟩)).position =
      boardPursuer.new_position ⟨4, 0⟩ ∧
    (exceptState (boardPursuer.move_shortest_path ⟨4, 0⟩)).trajectory =
      boardPursuer.trajectory ++ [boardPursuer.new_position ⟨4, 0⟩]) := by
  have htan : boardEvader.obstacle.radius <
      hypot (boardEvader.position.re - boardEvader.obstacle.center.re)
        (boardEvader.position.im - boardEvader.obstacle.center.im) := by
    simp only [boardEvader]
    norm_num [hypot, mk_re, mk_im, Complex.zero_re, Complex.zero_im, sqrt_nine]
  exact ⟨htan, c2_amended boardEvader ⟨4, 0⟩ boardPursuer ⟨4, 0⟩ htan⟩

theorem boardPursuer_sees : does_line_intersect_circle (⟨2, 0⟩ : ℂ) ⟨4, 0⟩ 0 1 = false := by
  rw [does_line_intersect_circle, perp_distance, closest_point]
  norm_num [mk_re, mk_im, Complex.zero_re, Complex.zero_im, normC, hypot, Complex.sub_re,
    Complex.sub_im, sqrt_four]

theorem boardPursuer_new_position : boardPursuer.new_position ⟨4, 0⟩ = ⟨3, 0⟩ := by
  have hsub : (⟨4, 0⟩ : ℂ) - ⟨2, 0⟩ = ⟨2, 0⟩ := by
    simp [Complex.ext_iff, Complex.sub_re, Complex.sub_im, mk_re, mk_im]
    norm_num
  have hnorm : normC ((⟨4, 0⟩ : ℂ) - ⟨2, 0⟩) = 2 := by
    rw [hsub]
    norm_num [normC, hypot, mk_re, mk_im, sqrt_four]
  rw [Pursuer.new_position]
  simp only [boardPursuer]
  rw [if_pos boardPursuer_sees, hnorm, hsub]
  norm_num [Complex.ext_iff, Complex.add_re, Complex.add_im, Complex.div_ofReal_re,
    Complex.div_ofReal_im, Complex.ofReal_one, mul_one, mk_re, mk_im]

/-- C2 counterexample: the Pursuer violates the board-boundary clamp.
On a board of half-extent 2, `boardPursuer`'s computed step toward the
visible evader at `(4, 0)` is `(3, 0)`, out of board, yet after
`move_shortest_path` the position has changed (to that out-of-board
point) instead of staying unchanged as the claim requires. -/
theorem c2_counterexample :
    (¬ (|(boardPursuer.new_position ⟨4, 0⟩).re| ≤ boardPursuer.board_size ∧
        |(boardPursuer.new_position ⟨4, 0⟩).im| ≤ boardPursuer.board_size)) ∧
    (exceptState (boardPursuer.move_shortest_path ⟨4, 0⟩)).position ≠ boardPursuer.position := by
  constructor
  · rw [boardPursuer_new_position]
    simp only [mk_re, mk_im, boardPursuer]
    norm_num
  · rw [(move_shortest_path_state boardPursuer ⟨4, 0⟩).1, boardPursuer_new_position]
    intro h
    have hre := congrArg Complex.re h
    simp only [mk_re, boardPursuer] at hre
    norm_num at hre

/-- The points appended to the isochrone list by one sweep over a list
of sample points, in order. -/
def iso_points (g : GameBoard) (tolarance : ℝ) : List (ℝ × ℝ) → List (ℝ × ℝ)
  | [] => []
  | p :: rest => (if cell_in_iso g tolarance p then [p] else []) ++ iso_points g tolarance rest

theorem cell_step_pursuer (g : GameBoard) (t : ℝ) (p : ℝ × ℝ) :
    (cell_step g t p).pursuer = g.pursuer := by
  rw [cell_step]
  split <;> rfl

theorem cell_step_evader (g : GameBoard) (t : ℝ) (p : ℝ × ℝ) :
    (cell_step g t p).evader = g.evader := by
  rw [cell_step]
  split <;> rfl

theorem cell_step_obstacle (g : GameBoard) (t : ℝ) (p : ℝ × ℝ) :
    (cell_step g t p).obstacle = g.obstacle := by
  rw [cell_step]
  split <;> rfl

theorem cell_step_board_size (g : GameBoard) (t : ℝ) (p : ℝ × ℝ) :
    (cell_step g t p).board_size = g.board_size := by
  rw [cell_step]
  split <;> rfl

theorem cell_step_grid (g : GameBoard) (t : ℝ) (p q : ℝ × ℝ) :
    (cell_step g t p).grid q = if q = p then cell_value g p else g.grid q := by
  by_cases h : hypot (p.1 - g.obstacle.center.re) (p.2 - g.obstacle.center.im) ≤
      g.obstacle.radius
  · simp only [cell_step, cell_value, if_pos h]
  · simp only [cell_step, cell_value, if_neg h]

theorem cell_step_iso (g : GameBoard) (t : ℝ) (p : ℝ × ℝ) :
    (cell_step g t p).isocrones =
      g.isocrones ++ (if cell_in_iso g t p then [p] else []) := by
  by_cases h : hypot (p.1 - g.obstacle.center.re) (p.2 - g.obstacle.center.im) ≤
      g.obstacle.radius
  · simp [cell_step, cell_in_iso, if_pos h, h]
  · by_cases h2 : |(cell_value g p).2.2| ≤ t
    · have h2' := h2
      simp only [cell_value, if_neg h] at h2'
      simp [cell_step, cell_in_iso, if_neg h, h, h2, h2']
    · have h2' := h2
      simp only [cell_value, if_neg h] at h2'
      simp [cell_step, cell_in_iso, if_neg h, h, h2, h2']

theorem cell_step_cell_value (g : GameBoard) (t : ℝ) (p q : ℝ × ℝ) :
    cell_value (cell_step g t p) q = cell_value g q := by
  rw [cell_step]
  split <;> rfl

theorem cell_step_cell_in_iso (g : GameBoard) (t t' : ℝ) (p q : ℝ × ℝ) :
    cell_in_iso (cell_step g t p) t' q = cell_in_iso g t' q := by
  rw [cell_step]
  split <;> rfl

theorem iso_points_congr (g g' : GameBoard) (t : ℝ)
    (h : ∀ q, cell_in_iso g' t q = cell_in_iso g t q) :
    ∀ l, iso_points g' t l = iso_points g t l := by
  intro l
  induction l with
  | nil => rfl
  | cons p rest ih =>
    simp only [iso_points, h p, ih]

theorem fold_grid (t : ℝ) :
    ∀ (pts : List (ℝ × ℝ)) (g : GameBoard) (q : ℝ × ℝ),
      ((pts.foldl (fun st p => cell_step st t p) g).grid) q =
        if q ∈ pts then cell_value g q else g.grid q := by
  intro pts
  induction pts with
  | nil => simp
  | cons p rest ih =>
    intro g q
    rw [List.foldl_cons, ih (cell_step g t p) q, cell_step_cell_value, cell_step_grid]
    by_cases hq : q ∈ rest
    · simp [hq]
    · by_cases hqp : q = p
      · subst hqp
        simp [hq]
      · simp [hq, hqp]

theorem fold_iso (t : ℝ) :
    ∀ (pts : List (ℝ × ℝ)) (g : GameBoard),
      (pts.foldl (fun st p => cell_step st t p) g).isocrones =
        g.isocrones ++ iso_points g t pts := by
  intro pts
  induction pts with
  | nil => simp [iso_points]
  | cons p rest ih =>
    intro g
    rw [List.foldl_cons, ih (cell_step g t p), cell_step_iso,
      iso_points_congr g (cell_step g t p) t (cell_step_cell_in_iso g t t p) rest]
    simp [iso_points, List.append_assoc]

theorem fold_pursuer (t : ℝ) :
    ∀ (pts : List (ℝ × ℝ)) (g : GameBoard),
      (pts.foldl (fun st p => cell_step st t p) g).pursuer = g.pursuer := by
  intro pts
  induction pts with
  | nil => intro g; rfl
  | cons p rest ih => intro g; rw [List.foldl_cons, ih, cell_step_pursuer]

theorem fold_evader (t : ℝ) :
    ∀ (pts : List (ℝ × ℝ)) (g : GameBoard),
      (pts.foldl (fun st p => cell_step st t p) g).evader = g.evader := by
  intro pts
  induction pts with
  | nil => intro g; rfl
  | cons p rest ih => intro g; rw [List.foldl_cons, ih, cell_step_evader]

theorem fold_obstacle (t : ℝ) :
    ∀ (pts : List (ℝ × ℝ)) (g : GameBoard),
      (pts.foldl (fun st p => cell_step st t p) g).obstacle = g.obstacle := by
  intro pts
  induction pts with
  | nil => intro g; rfl
  | cons p rest ih => intro g; rw [List.foldl_cons, ih, cell_step_obstacle]

theorem fold_board_size (t : ℝ) :
    ∀ (pts : List (ℝ × ℝ)) (g : GameBoard),
      (pts.foldl (fun st p => cell_step st t p) g).board_size = g.board_size := by
  intro pts
  induction pts with
  | nil => intro g; rfl
  | cons p rest ih => intro g; rw [List.foldl_cons, ih, cell_step_board_size]

theorem cell_value_congr (g g' : GameBoard) (h1 : g'.pursuer = g.pursuer)
    (h2 : g'.evader = g.evader) (h3 : g'.obstacle = g.obstacle)
    (h4 : g'.board_size = g.board_size) (q : ℝ × ℝ) :
    cell_value g' q = cell_value g q := by
  rw [cell_value, cell_value, h1, h2, h3, h4]

theorem cell_in_iso_congr (g g' : GameBoard) (t : ℝ) (h1 : g'.pursuer = g.pursuer)
    (h2 : g'.evader = g.evader) (h3 : g'.obstacle = g.obstacle)
    (h4 : g'.board_size = g.board_size) (q : ℝ × ℝ) :
    cell_in_iso g' t q = cell_in_iso g t q := by
  rw [cell_in_iso, cell_in_iso, cell_value_congr g g' h1 h2 h3 h4, h3]

/-- C1 (amended): rebuilding the isochrone grid with unchanged inputs
leaves the per-cell grid map identical, but the isochrone list is NOT
idempotent: `compute_isocrones` never clears `isocrones`, so the second
call appends the same sweep output again, duplicating every entry.  The
hypotheses keep both agents strictly outside the obstacle, the regime
in which no grid cell's shortest-path call can raise. -/
theorem c1_amended (g : GameBoard) (t : ℝ)
    (hP : g.obstacle.radius < normC (g.pursuer.position - g.obstacle.center))
    (hE : g.obstacle.radius < normC (g.evader.position - g.obstacle.center)) :
    ((g.compute_isocrones t).compute_isocrones t).grid = (g.compute_isocrones t).grid ∧
    ((g.compute_isocrones t).compute_isocrones t).isocrones =
      (g.compute_isocrones t).isocrones ++ iso_points g t (sample_points g.board_size) := by
  set g1 := g.compute_isocrones t with hg1
  have hp : g1.pursuer = g.pursuer := by
    rw [hg1, GameBoard.compute_isocrones]
    exact fold_pursuer t _ g
  have he : g1.evader = g.evader := by
    rw [hg1, GameBoard.compute_isocrones]
    exact fold_evader t _ g
  have ho : g1.obstacle = g.obstacle := by
    rw [hg1, GameBoard.compute_isocrones]
    exact fold_obstacle t _ g
  have hb : g1.board_size = g.board_size := by
    rw [hg1, GameBoard.compute_isocrones]
    exact fold_board_size t _ g
  constructor
  · funext q
    rw [GameBoard.compute_isocrones, fold_grid t _ g1 q, hb,
      cell_value_congr g g1 hp he ho hb q, hg1, GameBoard.compute_isocrones,
      fold_grid t _ g q]
    by_cases hq : q ∈ sample_points g.board_size <;> simp [hq]
  · rw [GameBoard.compute_isocrones, fold_iso t _ g1, hb,
      iso_points_congr g g1 t (cell_in_iso_congr g g1 t hp he ho hb) _]

/-- The pursuer of the concrete duplicate-isochrone board: it sits at
`(1, 0)`, far outside the obstacle at `(5, 5)`. -/
def isoPursuerAgent : Pursuer :=
  { position := ⟨1, 0⟩
    speed := 1
    board_size := 15
    trajectory := [⟨1, 0⟩]
    obstacle := { center := ⟨5, 5⟩, radius := 1 }
    tangent_points := (0, 0)
    tangent_lines := ((0, 0), (0, 0)) }

/-- The evader of the concrete duplicate-isochrone board: same position
and speed as the pursuer, so every sample cell's time difference is 0. -/
def isoEvaderAgent : Evader :=
  { position := ⟨1, 0⟩
    speed := 1
    board_size := 15
    trajectory := [⟨1, 0⟩]
    obstacle := { center := ⟨5, 5⟩, radius := 1 } }

/-- A minimal game board (half-extent 0, a single sample point at the
origin) on which the isochrone list demonstrably duplicates when the
grid is rebuilt. -/
def isoBoard : GameBoard :=
  { pursuer := isoPursuerAgent
    evader := isoEvaderAgent
    obstacle := { center := ⟨5, 5⟩, radius := 1 }
    board_size := 0
    grid := fun _ => (0, 0, 0)
    isocrones := [] }

theorem isoBoard_agents_outside :
    isoBoard.obstacle.radius < normC (isoBoard.pursuer.position - isoBoard.obstacle.center) ∧
    isoBoard.obstacle.radius < normC (isoBoard.evader.position - isoBoard.obstacle.center) := by
  have h41 : (1 : ℝ) < Real.sqrt 41 := (Real.lt_sqrt (by norm_num)).mpr (by norm_num)
  have hsub : ((⟨1, 0⟩ : ℂ) - ⟨5, 5⟩) = ⟨-4, -5⟩ := by
    simp [Complex.ext_iff, Complex.sub_re, Complex.sub_im, mk_re, mk_im]
    norm_num
  constructor
  · show (1 : ℝ) < normC ((⟨1, 0⟩ : ℂ) - ⟨5, 5⟩)
    rw [hsub, normC, hypot, mk_re, mk_im, show ((-4 : ℝ)) ^ 2 + (-5 : ℝ) ^ 2 = 41 by norm_num]
    exact h41
  · show (1 : ℝ) < normC ((⟨1, 0⟩ : ℂ) - ⟨5, 5⟩)
    rw [hsub, normC, hypot, mk_re, mk_im, show ((-4 : ℝ)) ^ 2 + (-5 : ℝ) ^ 2 = 41 by norm_num]
    exact h41

/-- Witness for the amended C1 theorem at the concrete board. -/
theorem c1_amended_witness :
    (isoBoard.obstacle.radius < normC (isoBoard.pursuer.position - isoBoard.obstacle.center)) ∧
    (isoBoard.obstacle.radius < normC (isoBoard.evader.position - isoBoard.obstacle.center)) ∧
    (((isoBoard.compute_isocrones (4 / 1000)).compute_isocrones (4 / 1000)).grid =
      (isoBoard.compute_isocrones (4 / 1000)).grid ∧
    ((isoBoard.compute_isocrones (4 / 1000)).compute_isocrones (4 / 1000)).isocrones =
      (isoBoard.compute_isocrones (4 / 1000)).isocrones ++
        iso_points isoBoard (4 / 1000) (sample_points isoBoard.board_size)) :=
  ⟨isoBoard_agents_outside.1, isoBoard_agents_outside.2,
    c1_amended isoBoard (4 / 1000) isoBoard_agents_outside.1 isoBoard_agents_outside.2⟩

theorem grid_range_zero : grid_range 0 = [0] := by
  rw [grid_range, show 20 * 0 + 1 = 1 from rfl, show List.range 1 = [0] from rfl,
    List.map_cons, List.map_nil]
  norm_num

theorem sample_points_zero : sample_points 0 = [(0, 0)] := by
  rw [sample_points, grid_range_zero]
  rfl

theorem isoBoard_cell_outside :
    ¬ hypot (((0 : ℝ), (0 : ℝ)).1 - isoBoard.obstacle.center.re)
      (((0 : ℝ), (0 : ℝ)).2 - isoBoard.obstacle.center.im) ≤ isoBoard.obstacle.radius := by
  show ¬ hypot ((0 : ℝ) - 5) ((0 : ℝ) - 5) ≤ 1
  have h50 : (1 : ℝ) < Real.sqrt 50 := (Real.lt_sqrt (by norm_num)).mpr (by norm_num)
  rw [hypot, show ((0 : ℝ) - 5) ^ 2 + ((0 : ℝ) - 5) ^ 2 = 50 by norm_num]
  exact not_le_of_lt h50

theorem isoBoard_cell_in_iso : cell_in_iso isoBoard (4 / 1000) (0, 0) := by
  refine ⟨isoBoard_cell_outside, ?_⟩
  have hv : (cell_value isoBoard (0, 0)).2.2 =
      shortest_path_length (⟨5, 5⟩ : ℂ) 1 (toC (0, 0)) ⟨1, 0⟩ * 1 -
      shortest_path_length (⟨5, 5⟩ : ℂ) 1 (toC (0, 0)) ⟨1, 0⟩ * 1 := by
    rw [cell_value, if_neg isoBoard_cell_outside]
    rfl
  rw [hv]
  norm_num

theorem isoBoard_iso_once :
    (isoBoard.compute_isocrones (4 / 1000)).isocrones = [(0, 0)] := by
  rw [GameBoard.compute_isocrones, fold_iso,
    show isoBoard.isocrones = [] from rfl,
    show isoBoard.board_size = 0 from rfl, sample_points_zero]
  simp only [iso_points, if_pos isoBoard_cell_in_iso]
  simp

/-- C1 counterexample: on the concrete board, one build produces the
isochrone list `[(0, 0)]` while a second build with unchanged inputs
produces `[(0, 0), (0, 0)]` — the isochrone set is not left identical
(it contains a duplicated entry), refuting the idempotence claim. -/
theorem c1_counterexample :
    ((isoBoard.compute_isocrones (4 / 1000)).compute_isocrones (4 / 1000)).isocrones ≠
      (isoBoard.compute_isocrones (4 / 1000)).isocrones := by
  set g1 := isoBoard.compute_isocrones (4 / 1000) with hg1
  have hp : g1.pursuer = isoBoard.pursuer := by
    rw [hg1, GameBoard.compute_isocrones]
    exact fold_pursuer _ _ _
  have he : g1.evader = isoBoard.evader := by
    rw [hg1, GameBoard.compute_isocrones]
    exact fold_evader _ _ _
  have ho : g1.obstacle = isoBoard.obstacle := by
    rw [hg1, GameBoard.compute_isocrones]
    exact fold_obstacle _ _ _
  have hb : g1.board_size = isoBoard.board_size := by
    rw [hg1, GameBoard.compute_isocrones]
    exact fold_board_size _ _ _
  have hiso2 : (g1.compute_isocrones (4 / 1000)).isocrones = [(0, 0), (0, 0)] := by
    rw [GameBoard.compute_isocrones, fold_iso, hb,
      show isoBoard.board_size = 0 from rfl, sample_points_zero,
      iso_points_congr isoBoard g1 (4 / 1000)
        (cell_in_iso_congr isoBoard g1 (4 / 1000) hp he ho hb) _,
      hg1, isoBoard_iso_once]
    simp only [iso_points, if_pos isoBoard_cell_in_iso]
    simp
  rw [hiso2, hg1, isoBoard_iso_once]
  intro h
  have hlen := congrArg List.length h
  simp at hlen

/-! Symmetry of the geometry kernel in the two segment endpoints. -/

theorem perp_distance_symm (p1 p2 cc : ℂ) :
    perp_distance p1 p2 cc = perp_distance p2 p1 cc := by
  simp only [perp_distance]
  have hnum : |(p1.im - p2.im) * cc.re + -(p1.re - p2.re) * cc.im +
      ((p1.re - p2.re) * p2.im - (p1.im - p2.im) * p2.re)| =
      |(p2.im - p1.im) * cc.re + -(p2.re - p1.re) * cc.im +
      ((p2.re - p1.re) * p1.im - (p2.im - p1.im) * p1.re)| := by
    rw [← abs_neg]
    congr 1
    ring
  have hden : Real.sqrt ((p1.im - p2.im) ^ 2 + (-(p1.re - p2.re)) ^ 2) =
      Real.sqrt ((p2.im - p1.im) ^ 2 + (-(p2.re - p1.re)) ^ 2) := by
    congr 1
    ring
  rw [hnum, hden]

theorem closest_point_symm (p1 p2 cc : ℂ) :
    closest_point p1 p2 cc = closest_point p2 p1 cc := by
  by_cases hdeg : p1 = p2
  · rw [hdeg]
  · have hne : p2.re - p1.re ≠ 0 ∨ p2.im - p1.im ≠ 0 := by
      by_contra hcon
      push_neg at hcon
      refine hdeg (Complex.ext ?_ ?_)
      · linarith [hcon.1]
      · linarith [hcon.2]
    have hD : 0 < (p2.re - p1.re) ^ 2 + (p2.im - p1.im) ^ 2 := by
      rcases hne with h | h
      · have h1 : 0 < (p2.re - p1.re) ^ 2 :=
          lt_of_le_of_ne (sq_nonneg _) (Ne.symm (pow_ne_zero 2 h))
        nlinarith [sq_nonneg (p2.im - p1.im)]
      · have h1 : 0 < (p2.im - p1.im) ^ 2 :=
          lt_of_le_of_ne (sq_nonneg _) (Ne.symm (pow_ne_zero 2 h))
        nlinarith [sq_nonneg (p2.re - p1.re)]
    have hDeq : (p1.re - p2.re) ^ 2 + (p1.im - p2.im) ^ 2 =
        (p2.re - p1.re) ^ 2 + (p2.im - p1.im) ^ 2 := by ring
    simp only [closest_point]
    rw [hDeq]
    set s := ((cc.re - p1.re) * (p2.re - p1.re) + (cc.im - p1.im) * (p2.im - p1.im)) /
      ((p2.re - p1.re) ^ 2 + (p2.im - p1.im) ^ 2) with hs
    have hparam : ((cc.re - p2.re) * (p1.re - p2.re) + (cc.im - p2.im) * (p1.im - p2.im)) /
        ((p2.re - p1.re) ^ 2 + (p2.im - p1.im) ^ 2) = 1 - s := by
      rw [hs, eq_sub_iff_add_eq, div_add_div_same, div_eq_one_iff_eq (ne_of_gt hD)]
      ring
    rw [hparam]
    by_cases hs0 : s < 0
    · rw [if_pos hs0, if_neg (not_lt.mpr (by linarith)), if_pos (by linarith)]
    · by_cases hs1 : 1 < s
      · rw [if_neg hs0, if_pos hs1, if_pos (by linarith)]
      · push_neg at hs0 hs1
        rw [if_neg (not_lt.mpr hs0), if_neg (not_lt.mpr hs1),
          if_neg (not_lt.mpr (by linarith)), if_neg (not_lt.mpr (by linarith))]
        refine Complex.ext ?_ ?_
        · show p1.re + s * (p2.re - p1.re) = p2.re + (1 - s) * (p1.re - p2.re)
          ring
        · show p1.im + s * (p2.im - p1.im) = p2.im + (1 - s) * (p1.im - p2.im)
          ring

theorem does_line_intersect_circle_symm (p1 p2 cc : ℂ) (r : ℝ) :
    does_line_intersect_circle p1 p2 cc r = does_line_intersect_circle p2 p1 cc r := by
  rw [does_line_intersect_circle, does_line_intersect_circle, perp_distance_symm p1 p2 cc,
    closest_point_symm p1 p2 cc]

theorem arc_length_symm (center : ℂ) (radius : ℝ) (q1 q2 : ℂ) :
    arc_length center radius q1 q2 = arc_length center radius q2 q1 := by
  simp only [arc_length]
  rw [dotC_comm]

theorem pickMin_fst (a x : ℝ × List ℂ) : (pickMin a x).1 = min a.1 x.1 := by
  rw [pickMin]
  split
  · next h => rw [min_eq_right h.le]
  · next h => rw [min_eq_left (le_of_not_lt h)]

/-- The candidate cost of one tangent-tangent-arc path from `point1` to
`point2` via tangent points `s` and `t`. -/
def tangent_cost (circle_center : ℂ) (circle_radius : ℝ) (point1 point2 s t : ℂ) : ℝ :=
  normC (s - point1) + normC (t - point2) + arc_length circle_center circle_radius s t

/-- When the direct segment intersects the circle and both endpoints are
strictly outside it, `shortest_path_with_circle` returns the first
minimum of the four tangent-tangent-arc candidates, in source order. -/
theorem sp_tangent_case (circle_center : ℂ) (circle_radius : ℝ) (point1 point2 : ℂ)
    (hI : does_line_intersect_circle point1 point2 circle_center circle_radius = true)
    (h1 : circle_radius < hypot (point1.re - circle_center.re) (point1.im - circle_center.im))
    (h2 : circle_radius < hypot (point2.re - circle_center.re) (point2.im - circle_center.im)) :
    shortest_path_with_circle circle_center circle_radius point1 point2 =
      .ok (pickMin (pickMin (pickMin
        (tangent_cost circle_center circle_radius point1 point2
           (tangent_data circle_center circle_radius point1 1000).t1
           (tangent_data circle_center circle_radius point2 1000).t1,
         [point1, (tangent_data circle_center circle_radius point1 1000).t1,
          (tangent_data circle_center circle_radius point2 1000).t1, point2])
        (tangent_cost circle_center circle_radius point1 point2
           (tangent_data circle_center circle_radius point1 1000).t2
           (tangent_data circle_center circle_radius point2 1000).t2,
         [point1, (tangent_data circle_center circle_radius point1 1000).t2,
          (tangent_data circle_center circle_radius point2 1000).t2, point2]))
        (tangent_cost circle_center circle_radius point1 point2
           (tangent_data circle_center circle_radius point1 1000).t1
           (tangent_data circle_center circle_radius point2 1000).t2,
         [point1, (tangent_data circle_center circle_radius point1 1000).t1,
          (tangent_data circle_center circle_radius point2 1000).t2, point2]))
        (tangent_cost circle_center circle_radius point1 point2
           (tangent_data circle_center circle_radius point1 1000).t2
           (tangent_data circle_center circle_radius point2 1000).t1,
         [point1, (tangent_data circle_center circle_radius point1 1000).t2,
          (tangent_data circle_center circle_radius point2 1000).t1, point2])) := by
  rw [shortest_path_with_circle, if_neg (by simp [hI]), compute_tangents_circle,
    if_neg (not_le_of_lt h1), compute_tangents_circle, if_neg (not_le_of_lt h2)]
  rfl

/-- C6: `shortest_path_with_circle` is symmetric in its endpoints — for
both endpoints strictly outside the circle the two calls succeed with
the same length. -/
theorem c6_shortest_path_symmetric (circle_center : ℂ) (circle_radius : ℝ) (point1 point2 : ℂ)
    (h1 : circle_radius < hypot (point1.re - circle_center.re) (point1.im - circle_center.im))
    (h2 : circle_radius < hypot (point2.re - circle_center.re) (point2.im - circle_center.im)) :
    ∃ L path12 path21,
      shortest_path_with_circle circle_center circle_radius point1 point2 = .ok (L, path12) ∧
      shortest_path_with_circle circle_center circle_radius point2 point1 = .ok (L, path21) := by
  by_cases hI : does_line_intersect_circle point1 point2 circle_center circle_radius = false
  · have hI' : does_line_intersect_circle point2 point1 circle_center circle_radius = false := by
      rw [← does_line_intersect_circle_symm]
      exact hI
    refine ⟨normC (point2 - point1), [point1, point2], [point2, point1], ?_, ?_⟩
    · rw [shortest_path_with_circle, if_pos hI]
    · rw [shortest_path_with_circle, if_pos hI', normC_sub_comm]
  · have hI1 : does_line_intersect_circle point1 point2 circle_center circle_radius = true :=
      Bool.not_eq_false _ |>.mp hI
    have hI2 : does_line_intersect_circle point2 point1 circle_center circle_radius = true := by
      rw [← does_line_intersect_circle_symm]
      exact hI1
    have e12 := sp_tangent_case circle_center circle_radius point1 point2 hI1 h1 h2
    have e21 := sp_tangent_case circle_center circle_radius point2 point1 hI2 h2 h1
    set A1 := (tangent_data circle_center circle_radius point1 1000).t1
    set A2 := (tangent_data circle_center circle_radius point1 1000).t2
    set B1 := (tangent_data circle_center circle_radius point2 1000).t1
    set B2 := (tangent_data circle_center circle_radius point2 1000).t2
    set c11 := tangent_cost circle_center circle_radius point1 point2 A1 B1
    set c22 := tangent_cost circle_center circle_radius point1 point2 A2 B2
    set c12 := tangent_cost circle_center circle_radius point1 point2 A1 B2
    set c21 := tangent_cost circle_center circle_radius point1 point2 A2 B1
    have hc11 : tangent_cost circle_center circle_radius point2 point1 B1 A1 = c11 := by
      simp only [tangent_cost, c11]
      rw [arc_length_symm]
      ring
    have hc22 : tangent_cost circle_center circle_radius point2 point1 B2 A2 = c22 := by
      simp only [tangent_cost, c22]
      rw [arc_length_symm]
      ring
    have hc12 : tangent_cost circle_center circle_radius point2 point1 B1 A2 = c21 := by
      simp only [tangent_cost, c21]
      rw [arc_length_symm]
      ring
    have hc21 : tangent_cost circle_center circle_radius point2 point1 B2 A1 = c12 := by
      simp only [tangent_cost, c12]
      rw [arc_length_symm]
      ring
    rw [hc11, hc22, hc12, hc21] at e21
    refine ⟨min (min (min c11 c22) c12) c21,
      (pickMin (pickMin (pickMin (c11, [point1, A1, B1, point2]) (c22, [point1, A2, B2, point2]))
        (c12, [point1, A1, B2, point2])) (c21, [point1, A2, B1, point2])).2,
      (pickMin (pickMin (pickMin (c11, [point2, B1, A1, point1]) (c22, [point2, B2, A2, point1]))
        (c21, [point2, B1, A2, point1])) (c12, [point2, B2, A1, point1])).2, ?_, ?_⟩
    · rw [e12]
      congr 1
      refine Prod.ext ?_ rfl
      simp only [pickMin_fst]
    · rw [e21]
      congr 1
      refine Prod.ext ?_ rfl
      simp only [pickMin_fst]
      rw [min_right_comm (min c11 c22) c21 c12]

/-- Witness for C6 at the unit circle around the origin with endpoints
`(2, 0)` and `(0, 2)`. -/
theorem c6_shortest_path_symmetric_witness :
    ((1 : ℝ) < hypot ((⟨2, 0⟩ : ℂ).re - (0 : ℂ).re) ((⟨2, 0⟩ : ℂ).im - (0 : ℂ).im)) ∧
    ((1 : ℝ) < hypot ((⟨0, 2⟩ : ℂ).re - (0 : ℂ).re) ((⟨0, 2⟩ : ℂ).im - (0 : ℂ).im)) ∧
    (∃ L path12 path21,
      shortest_path_with_circle 0 1 ⟨2, 0⟩ ⟨0, 2⟩ = .ok (L, path12) ∧
      shortest_path_with_circle 0 1 ⟨0, 2⟩ ⟨2, 0⟩ = .ok (L, path21)) := by
  have ha : (1 : ℝ) < hypot ((⟨2, 0⟩ : ℂ).re - (0 : ℂ).re) ((⟨2, 0⟩ : ℂ).im - (0 : ℂ).im) := by
    norm_num [hypot, mk_re, mk_im, Complex.zero_re, Complex.zero_im, sqrt_four]
  have hb : (1 : ℝ) < hypot ((⟨0, 2⟩ : ℂ).re - (0 : ℂ).re) ((⟨0, 2⟩ : ℂ).im - (0 : ℂ).im) := by
    norm_num [hypot, mk_re, mk_im, Complex.zero_re, Complex.zero_im, sqrt_four]
  exact ⟨ha, hb, c6_shortest_path_symmetric 0 1 ⟨2, 0⟩ ⟨0, 2⟩ ha hb⟩

/-! The arc between two points on the circle is at least the chord, with
equality only for coinciding points; together with the triangle
inequality this bounds every tangent-tangent-arc candidate from below
by the straight-line distance. -/

theorem chord_le_arc (cc : ℂ) (r : ℝ) (T1 T2 : ℂ) (hr : 0 < r)
    (h1 : normC (T1 - cc) = r) (h2 : normC (T2 - cc) = r) :
    normC (T1 - T2) ≤ arc_length cc r T1 T2 ∧
    (normC (T1 - T2) = arc_length cc r T1 T2 → T1 = T2) := by
  have hr2 : (0 : ℝ) < r ^ 2 := by positivity
  have hd : |dotC (T1 - cc) (T2 - cc)| ≤ r ^ 2 := by
    have h := abs_dotC_le (T1 - cc) (T2 - cc)
    rw [h1, h2, ← sq] at h
    exact h
  have hle : dotC (T1 - cc) (T2 - cc) / r ^ 2 ≤ 1 := by
    rw [div_le_one hr2]
    linarith [(abs_le.mp hd).2]
  have hge : -1 ≤ dotC (T1 - cc) (T2 - cc) / r ^ 2 := by
    rw [le_div_iff₀ hr2]
    linarith [(abs_le.mp hd).1]
  have hclip : npclip (dotC (T1 - cc) (T2 - cc) / r ^ 2) (-1) 1 =
      dotC (T1 - cc) (T2 - cc) / r ^ 2 := by
    rw [npclip, min_eq_left hle, max_eq_right hge]
  have hθ0 : 0 ≤ Real.arccos (dotC (T1 - cc) (T2 - cc) / r ^ 2) := Real.arccos_nonneg _
  have hθπ : Real.arccos (dotC (T1 - cc) (T2 - cc) / r ^ 2) ≤ Real.pi := Real.arccos_le_pi _
  have hcosθ : Real.cos (Real.arccos (dotC (T1 - cc) (T2 - cc) / r ^ 2)) =
      dotC (T1 - cc) (T2 - cc) / r ^ 2 := Real.cos_arccos hge hle
  set θ := Real.arccos (dotC (T1 - cc) (T2 - cc) / r ^ 2) with hθdef
  have harc : arc_length cc r T1 T2 = r * θ := by
    simp only [arc_length]
    rw [hclip, ← hθdef, min_eq_left (by linarith)]
  have hchordsq : normC (T1 - T2) ^ 2 = 2 * r ^ 2 - 2 * r ^ 2 * Real.cos θ := by
    rw [normC_sq]
    have e1 : dotC (T1 - T2) (T1 - T2) =
        dotC (T1 - cc) (T1 - cc) - 2 * dotC (T1 - cc) (T2 - cc) + dotC (T2 - cc) (T2 - cc) := by
      simp only [dotC, Complex.sub_re, Complex.sub_im]
      ring
    rw [e1, ← normC_sq, ← normC_sq, h1, h2, hcosθ]
    field_simp
    ring
  have hsin0 : 0 ≤ Real.sin (θ / 2) :=
    Real.sin_nonneg_of_nonneg_of_le_pi (by linarith) (by linarith [Real.pi_pos])
  have hcos2 : Real.cos θ = 1 - 2 * Real.sin (θ / 2) ^ 2 := by
    have hc := Real.cos_two_mul (θ / 2)
    rw [show 2 * (θ / 2) = θ by ring] at hc
    nlinarith [Real.sin_sq_add_cos_sq (θ / 2)]
  have hchord : normC (T1 - T2) = 2 * r * Real.sin (θ / 2) := by
    have hsq : normC (T1 - T2) ^ 2 = (2 * r * Real.sin (θ / 2)) ^ 2 := by
      rw [hchordsq, hcos2]
      ring
    have h2r : 0 ≤ 2 * r * Real.sin (θ / 2) := by
      apply mul_nonneg (by linarith)
      exact hsin0
    rw [← Real.sqrt_sq (normC_nonneg (T1 - T2)), hsq, Real.sqrt_sq h2r]
  constructor
  · rw [harc, hchord]
    have hs : Real.sin (θ / 2) ≤ θ / 2 := by
      rcases eq_or_lt_of_le (show (0 : ℝ) ≤ θ / 2 by linarith) with h | h
      · rw [← h]
        simp
      · exact le_of_lt (Real.sin_lt h)
    nlinarith
  · intro heq
    rw [harc, hchord] at heq
    have hθz : θ = 0 := by
      by_contra hne
      have hpos : 0 < θ / 2 := by
        rcases lt_or_eq_of_le hθ0 with h | h
        · linarith
        · exact absurd h.symm hne
      have := Real.sin_lt hpos
      nlinarith
    have hz : normC (T1 - T2) = 0 := by
      rw [hchord, hθz]
      norm_num
    exact sub_eq_zero.mp (normC_eq_zero_iff.mp hz)

/-- Equality in the triangle inequality forces the two vectors onto the
same ray: either the first vanishes or the second is a nonnegative
multiple of it. -/
theorem normC_add_eq_cases {u v : ℂ} (h : normC (u + v) = normC u + normC v) :
    u = 0 ∨ ∃ t : ℝ, 0 ≤ t ∧ v.re = t * u.re ∧ v.im = t * u.im := by
  have hdot : dotC u v = normC u * normC v := by
    have h2 : normC (u + v) ^ 2 = (normC u + normC v) ^ 2 := by rw [h]
    have e1 : dotC (u + v) (u + v) = dotC u u + 2 * dotC u v + dotC v v := by
      simp only [dotC, Complex.add_re, Complex.add_im]
      ring
    rw [normC_sq, e1, ← normC_sq, ← normC_sq] at h2
    nlinarith [h2]
  by_cases hu : u = 0
  · exact Or.inl hu
  · right
    have hcross : u.re * v.im - u.im * v.re = 0 := by
      have hl : dotC u v ^ 2 + (u.re * v.im - u.im * v.re) ^ 2 = dotC u u * dotC v v := by
        simp only [dotC]
        ring
      rw [hdot, ← normC_sq, ← normC_sq] at hl
      have h0 : (u.re * v.im - u.im * v.re) ^ 2 ≤ 0 := by nlinarith [hl]
      have h0' : (u.re * v.im - u.im * v.re) ^ 2 = 0 :=
        le_antisymm h0 (sq_nonneg _)
      exact pow_eq_zero_iff (two_ne_zero) |>.mp h0'
    have huu : (0 : ℝ) < dotC u u := by
      rcases lt_or_eq_of_le (by rw [← normC_sq]; positivity : (0 : ℝ) ≤ dotC u u) with h' | h'
      · exact h'
      · exfalso
        apply hu
        apply normC_eq_zero_iff.mp
        have : normC u ^ 2 = 0 := by rw [normC_sq, ← h']
        exact pow_eq_zero_iff (two_ne_zero) |>.mp this
    refine ⟨dotC u v / dotC u u, ?_, ?_, ?_⟩
    · apply div_nonneg _ huu.le
      rw [hdot]
      exact mul_nonneg (normC_nonneg u) (normC_nonneg v)
    · rw [div_mul_eq_mul_div, eq_div_iff (ne_of_gt huu)]
      simp only [dotC]
      linear_combination (-u.im) * hcross
    · rw [div_mul_eq_mul_div, eq_div_iff (ne_of_gt huu)]
      simp only [dotC]
      linear_combination u.re * hcross

/-- When `does_line_intersect_circle` reports an intersection, some
point of the segment (the code's clamped closest point, at parameter
`s ∈ {0, 1, param}`) lies strictly inside the circle. -/
theorem intersect_exists_inner (p1 p2 cc : ℂ) (r : ℝ)
    (hI : does_line_intersect_circle p1 p2 cc r = true) :
    ∃ s : ℝ,
      normC ((⟨p1.re + s * (p2.re - p1.re), p1.im + s * (p2.im - p1.im)⟩ : ℂ) - cc) < r := by
  rw [does_line_intersect_circle] at hI
  by_cases hp : r < perp_distance p1 p2 cc
  · rw [if_pos hp] at hI
    exact absurd hI (by simp)
  · rw [if_neg hp] at hI
    by_cases hc : normC (closest_point p1 p2 cc - cc) < r
    · simp only [closest_point] at hc
      set param := ((cc.re - p1.re) * (p2.re - p1.re) + (cc.im - p1.im) * (p2.im - p1.im)) /
        ((p2.re - p1.re) ^ 2 + (p2.im - p1.im) ^ 2) with hparam
      by_cases h0 : param < 0
      · rw [if_pos h0] at hc
        refine ⟨0, ?_⟩
        rw [show (⟨p1.re + 0 * (p2.re - p1.re), p1.im + 0 * (p2.im - p1.im)⟩ : ℂ) = p1 by
          refine Complex.ext ?_ ?_ <;> simp]
        exact hc
      · rw [if_neg h0] at hc
        by_cases h1 : 1 < param
        · rw [if_pos h1] at hc
          refine ⟨1, ?_⟩
          rw [show (⟨p1.re + 1 * (p2.re - p1.re), p1.im + 1 * (p2.im - p1.im)⟩ : ℂ) = p2 by
            refine Complex.ext ?_ ?_ <;> simp [mk_re, mk_im]]
          exact hc
        · rw [if_neg h1] at hc
          exact ⟨param, hc⟩
    · rw [if_neg hc] at hI
      exact absurd hI (by simp)

/-- Each tangent-tangent-arc candidate is at least the straight-line
distance between the endpoints. -/
theorem candidate_ge (cc : ℂ) (r : ℝ) (A B T1 T2 : ℂ) (hr : 0 < r)
    (hT1n : normC (T1 - cc) = r) (hT2n : normC (T2 - cc) = r) :
    normC (B - A) ≤ tangent_cost cc r A B T1 T2 := by
  have ht1 : normC (B - A) ≤ normC (B - T2) + normC (T2 - A) := normC_triangle B T2 A
  have ht2 : normC (T2 - A) ≤ normC (T2 - T1) + normC (T1 - A) := normC_triangle T2 T1 A
  have harc := (chord_le_arc cc r T1 T2 hr hT1n hT2n).1
  rw [tangent_cost]
  rw [normC_sub_comm T2 T1] at ht2
  rw [normC_sub_comm B T2] at ht1
  linarith

/-- No tangent-tangent-arc candidate ever equals the straight-line
distance when the segment strictly enters the circle: equality would
force the two tangent points to coincide at a point of the segment
whose tangent line cannot meet the circle's interior. -/
theorem candidate_ne (cc : ℂ) (r : ℝ) (A B T1 T2 : ℂ) (hr : 0 < r)
    (hA : r < normC (A - cc))
    (hT1n : normC (T1 - cc) = r) (hT1p : dotC (A - T1) (T1 - cc) = 0)
    (hT2n : normC (T2 - cc) = r) (s : ℝ)
    (hQ : normC ((⟨A.re + s * (B.re - A.re), A.im + s * (B.im - A.im)⟩ : ℂ) - cc) < r) :
    tangent_cost cc r A B T1 T2 ≠ normC (B - A) := by
  intro heq
  rw [tangent_cost] at heq
  have ht1 : normC (B - A) ≤ normC (B - T2) + normC (T2 - A) := normC_triangle B T2 A
  have ht2 : normC (T2 - A) ≤ normC (T2 - T1) + normC (T1 - A) := normC_triangle T2 T1 A
  have harc := (chord_le_arc cc r T1 T2 hr hT1n hT2n).1
  have c1 := normC_sub_comm T2 T1
  have c2 := normC_sub_comm B T2
  have hchord_eq : normC (T1 - T2) = arc_length cc r T1 T2 := by linarith
  obtain rfl : T1 = T2 := (chord_le_arc cc r T1 T2 hr hT1n hT2n).2 hchord_eq
  have hz : normC (T1 - T1) = 0 := by
    rw [sub_self]
    exact normC_eq_zero_iff.mpr rfl
  have hS : normC ((T1 - A) + (B - T1)) = normC (T1 - A) + normC (B - T1) := by
    rw [show (T1 - A) + (B - T1) = B - A by ring, normC_sub_comm B T1,
      normC_sub_comm T1 A]
    linarith [heq, hchord_eq, hz, normC_sub_comm A T1]
  rcases normC_add_eq_cases hS with hu0 | ⟨t, _, hvre, hvim⟩
  · have hTA : T1 = A := sub_eq_zero.mp hu0
    rw [hTA] at hT1n
    exact absurd hT1n (ne_of_gt hA)
  · have hB_re : B.re = T1.re + t * (T1.re - A.re) := by
      have h' := hvre
      simp only [Complex.sub_re] at h'
      linarith
    have hB_im : B.im = T1.im + t * (T1.im - A.im) := by
      have h' := hvim
      simp only [Complex.sub_im] at h'
      linarith
    have hperp' : dotC (T1 - A) (T1 - cc) = 0 := by
      have he : dotC (T1 - A) (T1 - cc) = -dotC (A - T1) (T1 - cc) := by
        simp only [dotC, Complex.sub_re, Complex.sub_im]
        ring
      rw [he, hT1p, neg_zero]
    have key : normC ((⟨A.re + s * (B.re - A.re), A.im + s * (B.im - A.im)⟩ : ℂ) - cc) ^ 2 =
        (s * (1 + t) - 1) ^ 2 * dotC (T1 - A) (T1 - A) +
        2 * (s * (1 + t) - 1) * dotC (T1 - A) (T1 - cc) + normC (T1 - cc) ^ 2 := by
      rw [normC_sq, normC_sq]
      simp only [dotC, Complex.sub_re, Complex.sub_im, mk_re, mk_im]
      rw [hB_re, hB_im]
      ring
    have hQ2 : normC ((⟨A.re + s * (B.re - A.re), A.im + s * (B.im - A.im)⟩ : ℂ) - cc) ^ 2 <
        r ^ 2 := by
      exact pow_lt_pow_left₀ hQ (normC_nonneg _) (by norm_num)
    rw [key, hperp', hT1n] at hQ2
    have hdnn : (0 : ℝ) ≤ dotC (T1 - A) (T1 - A) := by
      rw [← normC_sq]
      positivity
    nlinarith [sq_nonneg (s * (1 + t) - 1), mul_nonneg (sq_nonneg (s * (1 + t) - 1)) hdnn]

/-- C5: for endpoints strictly outside a positive-radius circle,
`shortest_path_with_circle` succeeds with a length at least the
straight-line distance, with equality exactly when the direct segment
does not strictly intersect the circle. -/
theorem c5_shortest_path_lower_bound (cc : ℂ) (r : ℝ) (A B : ℂ) (hr : 0 < r)
    (hA : r < hypot (A.re - cc.re) (A.im - cc.im))
    (hB : r < hypot (B.re - cc.re) (B.im - cc.im)) :
    ∃ L pts, shortest_path_with_circle cc r A B = .ok (L, pts) ∧
      normC (B - A) ≤ L ∧
      (L = normC (B - A) ↔ does_line_intersect_circle A B cc r = false) := by
  have hA' : r < normC (A - cc) := by
    rw [normC, Complex.sub_re, Complex.sub_im]
    exact hA
  by_cases hI : does_line_intersect_circle A B cc r = false
  · exact ⟨normC (B - A), [A, B], by rw [shortest_path_with_circle, if_pos hI], le_refl _,
      by simp [hI]⟩
  · have hI' : does_line_intersect_circle A B cc r = true := Bool.not_eq_false _ |>.mp hI
    have e := sp_tangent_case cc r A B hI' hA hB
    obtain ⟨hA1n, hA2n, hA1p, hA2p⟩ := tangent_data_props cc r A 1000 hr.le hA
    obtain ⟨hB1n, hB2n, hB1p, hB2p⟩ := tangent_data_props cc r B 1000 hr.le hB
    obtain ⟨s, hQ⟩ := intersect_exists_inner A B cc r hI'
    set A1 := (tangent_data cc r A 1000).t1
    set A2 := (tangent_data cc r A 1000).t2
    set B1 := (tangent_data cc r B 1000).t1
    set B2 := (tangent_data cc r B 1000).t2
    set c11 := tangent_cost cc r A B A1 B1
    set c22 := tangent_cost cc r A B A2 B2
    set c12 := tangent_cost cc r A B A1 B2
    set c21 := tangent_cost cc r A B A2 B1
    have hge11 : normC (B - A) ≤ c11 := candidate_ge cc r A B A1 B1 hr hA1n hB1n
    have hge22 : normC (B - A) ≤ c22 := candidate_ge cc r A B A2 B2 hr hA2n hB2n
    have hge12 : normC (B - A) ≤ c12 := candidate_ge cc r A B A1 B2 hr hA1n hB2n
    have hge21 : normC (B - A) ≤ c21 := candidate_ge cc r A B A2 B1 hr hA2n hB1n
    have hne11 : c11 ≠ normC (B - A) := candidate_ne cc r A B A1 B1 hr hA' hA1n hA1p hB1n s hQ
    have hne22 : c22 ≠ normC (B - A) := candidate_ne cc r A B A2 B2 hr hA' hA2n hA2p hB2n s hQ
    have hne12 : c12 ≠ normC (B - A) := candidate_ne cc r A B A1 B2 hr hA' hA1n hA1p hB2n s hQ
    have hne21 : c21 ≠ normC (B - A) := candidate_ne cc r A B A2 B1 hr hA' hA2n hA2p hB1n s hQ
    refine ⟨min (min (min c11 c22) c12) c21,
      (pickMin (pickMin (pickMin (c11, [A, A1, B1, B]) (c22, [A, A2, B2, B]))
        (c12, [A, A1, B2, B])) (c21, [A, A2, B1, B])).2, ?_, ?_, ?_⟩
    · rw [e]
      congr 1
      refine Prod.ext ?_ rfl
      simp only [pickMin_fst]
    · exact le_min (le_min (le_min hge11 hge22) hge12) hge21
    · constructor
      · intro hL
        exfalso
        rcases min_choice (min (min c11 c22) c12) c21 with h | h
        · rw [h] at hL
          rcases min_choice (min c11 c22) c12 with h2 | h2
          · rw [h2] at hL
            rcases min_choice c11 c22 with h3 | h3
            · rw [h3] at hL
              exact hne11 hL
            · rw [h3] at hL
              exact hne22 hL
          · rw [h2] at hL
            exact hne12 hL
        · rw [h] at hL
          exact hne21 hL
      · intro hF
        exact absurd hF hI

/-- Witness for C5 at the unit circle around the origin with endpoints
`(2, 0)` and `(0, 2)`. -/
theorem c5_shortest_path_lower_bound_witness :
    ((0 : ℝ) < 1) ∧
    ((1 : ℝ) < hypot ((⟨2, 0⟩ : ℂ).re - (0 : ℂ).re) ((⟨2, 0⟩ : ℂ).im - (0 : ℂ).im)) ∧
    ((1 : ℝ) < hypot ((⟨0, 2⟩ : ℂ).re - (0 : ℂ).re) ((⟨0, 2⟩ : ℂ).im - (0 : ℂ).im)) ∧
    (∃ L pts, shortest_path_with_circle 0 1 ⟨2, 0⟩ ⟨0, 2⟩ = .ok (L, pts) ∧
      normC ((⟨0, 2⟩ : ℂ) - ⟨2, 0⟩) ≤ L ∧
      (L = normC ((⟨0, 2⟩ : ℂ) - ⟨2, 0⟩) ↔
        does_line_intersect_circle ⟨2, 0⟩ ⟨0, 2⟩ 0 1 = false)) := by
  have ha : (1 : ℝ) < hypot ((⟨2, 0⟩ : ℂ).re - (0 : ℂ).re) ((⟨2, 0⟩ : ℂ).im - (0 : ℂ).im) := by
    norm_num [hypot, mk_re, mk_im, Complex.zero_re, Complex.zero_im, sqrt_four]
  have hb : (1 : ℝ) < hypot ((⟨0, 2⟩ : ℂ).re - (0 : ℂ).re) ((⟨0, 2⟩ : ℂ).im - (0 : ℂ).im) := by
    norm_num [hypot, mk_re, mk_im, Complex.zero_re, Complex.zero_im, sqrt_four]
  exact ⟨one_pos, ha, hb, c5_shortest_path_lower_bound 0 1 ⟨2, 0⟩ ⟨0, 2⟩ one_pos ha hb⟩

end

